import Mathlib

/-!
Shallow embedding of the rscript front end and execution core
(src/span.rs, src/lexer.rs, src/ast.rs, src/parser/mod.rs,
src/runtime/environment.rs, src/runtime/mod.rs), together with theorems
settling the specification claims about it.
-/

namespace Rscript

/-! Span (src/span.rs).  The Rust field `end` is named `stop` here because
`end` is a Lean keyword. -/

structure Span where
  start : Nat
  stop : Nat
deriving DecidableEq, Repr

/-- `Span::combine` (src/span.rs lines 11-16): start is the minimum of both
starts, and the end is the MINIMUM of both ends (exactly as in the source). -/
def Span.combine (s : Span) (other : Span) : Span :=
  { start := min s.start other.start, stop := min s.stop other.stop }

/-! Lexer (src/lexer.rs).  The logos-generated tokenizer is embedded as a
maximal-munch scanner over the character list of the source text. -/

/-- The reason carried by a failed `str::parse::<i64>` on a digit-only slice:
the only possible failure is positive overflow. -/
inductive IntErrorKind where
  | posOverflow
deriving DecidableEq, Repr

/-- `LexerError` (src/lexer.rs lines 8-16). -/
inductive LexerError where
  | parseIntError (kind : IntErrorKind)
  | parseFloatError
  | other
deriving DecidableEq, Repr

/-- Opaque model of an `f64` produced by `str::parse::<f64>` on a
`digits.digits` slice; the runtime never inspects float values, so the
value is represented by the source slice it was parsed from. -/
structure F64 where
  repr : String
deriving DecidableEq, Repr

/-- `Token` (src/lexer.rs lines 18-142). -/
inductive Token where
  | kTrue | kFalse | kLet | kMut | kType | kStruct | kFn
  | kWhile | kLoop | kFor | kIf | kElse | kReturn
  | plus | minus | star | slash | assign | equals | notEquals
  | lessThan | greaterThan | andOp | orOp
  | lparen | rparen | lbrace | rbrace | lbracket | rbracket
  | semicolon | colon | comma | period | rightArrow
  | identifier (name : String)
  | integerLiteral (value : Int)
  | floatLiteral (value : F64)
  | stringLiteral (value : String)
deriving DecidableEq, Repr

/-- Whitespace skipped by the lexer: `[ \t\n\f]` (src/lexer.rs line 20). -/
def isWsCh (c : Char) : Bool :=
  c.toNat = 32 || c.toNat = 9 || c.toNat = 10 || c.toNat = 12

/-- `[0-9]` -/
def isDigitCh (c : Char) : Bool :=
  48 ≤ c.toNat && c.toNat ≤ 57

/-- `[a-zA-Z_]`, the first character of an identifier. -/
def isIdentStart (c : Char) : Bool :=
  (65 ≤ c.toNat && c.toNat ≤ 90) || (97 ≤ c.toNat && c.toNat ≤ 122) || c.toNat = 95

/-- `[a-zA-Z0-9_]`, a continuation character of an identifier. -/
def isIdentCont (c : Char) : Bool :=
  isIdentStart c || isDigitCh c

/-- Splits a list into its longest prefix of characters satisfying `p`
and the remaining suffix (the maximal-munch run). -/
def takeWhileCh (p : Char → Bool) : List Char → List Char × List Char
  | [] => ([], [])
  | c :: rest =>
    if p c then
      let (run, rest') := takeWhileCh p rest
      (c :: run, rest')
    else ([], c :: rest)

/-- Numeric value of a digit run (the value `str::parse::<i64>` computes). -/
def digitsToNat (ds : List Char) : Nat :=
  ds.foldl (fun a c => 10 * a + (c.toNat - 48)) 0

/-- `i64::MAX` -/
def i64Max : Nat := 2 ^ 63 - 1

/-- The keyword table: exact `#[token(...)]` matches that take priority over
the identifier regex (src/lexer.rs lines 24-49). -/
def keywordOf (s : String) : Option Token :=
  if s = "true" then some .kTrue
  else if s = "false" then some .kFalse
  else if s = "let" then some .kLet
  else if s = "mut" then some .kMut
  else if s = "type" then some .kType
  else if s = "struct" then some .kStruct
  else if s = "fn" then some .kFn
  else if s = "while" then some .kWhile
  else if s = "loop" then some .kLoop
  else if s = "for" then some .kFor
  else if s = "if" then some .kIf
  else if s = "else" then some .kElse
  else if s = "return" then some .kReturn
  else none

/-- An identifier-shaped run is a keyword token when it matches the keyword
table exactly, otherwise `Token::Identifier` (src/lexer.rs lines 122-123). -/
def identOrKeyword (s : String) : Token :=
  (keywordOf s).getD (.identifier s)

/-- `str::parse::<f64>` on a slice matching `[0-9]+\.[0-9]+`.  Rust's float
parser never fails on such a slice (out-of-range values saturate to
infinity), so this is total; the `Result` type is kept so that the lexer's
error plumbing for `ParseFloatError` (src/lexer.rs line 129) stays visible. -/
def parseF64 (s : String) : Except LexerError F64 :=
  .ok ⟨s⟩

/-- The callback of the `IntegerLiteral` rule: `lex.slice().parse::<i64>()`
(src/lexer.rs line 126).  A digit-only slice fails exactly when its value
exceeds `i64::MAX`, with reason `PosOverflow`. -/
def intLexResult (ds : List Char) : Except LexerError Token :=
  if digitsToNat ds ≤ i64Max then .ok (.integerLiteral (digitsToNat ds))
  else .error (.parseIntError .posOverflow)

/-- Scans the body of a string literal after the opening quote, per the regex
`"([^"\\]|\\.)*"` (src/lexer.rs line 140): returns the number of characters
consumed (including the closing quote) and the rest, or `none` when the
regex cannot match (unterminated string). -/
def scanStr : List Char → Option (Nat × List Char)
  | [] => none
  | c :: rest =>
    if c = '"' then some (1, rest)
    else if c = '\\' then
      match rest with
      | [] => none
      | _ :: rest2 => (scanStr rest2).map (fun p => (p.1 + 2, p.2))
    else (scanStr rest).map (fun p => (p.1 + 1, p.2))

/-- One step of the tokenizer: skips whitespace, then produces the next
`(token-or-error, span)` together with the position and input that remain.
Returns `none` at end of input.  The branches mirror the rules of `Token`
(src/lexer.rs): number literals (with the `digits.digits` float lookahead),
identifiers/keywords, string literals, two-character operators before their
one-character prefixes, one-character operators and delimiters, and a
default lexical error on any character matching no rule. -/
def nextToken (pos : Nat) : List Char → Option (Except LexerError Token × Span × Nat × List Char)
  | [] => none
  | c :: rest =>
    if isWsCh c then nextToken (pos + 1) rest
    else if isDigitCh c then
      let (ds, rest1) := takeWhileCh isDigitCh (c :: rest)
      match rest1 with
      | '.' :: d :: r2 =>
        if isDigitCh d then
          let (fs, rest2) := takeWhileCh isDigitCh (d :: r2)
          let slice := ds ++ '.' :: fs
          let tok := match parseF64 (String.mk slice) with
            | .ok f => Except.ok (Token.floatLiteral f)
            | .error e => Except.error e
          some (tok, ⟨pos, pos + slice.length⟩, pos + slice.length, rest2)
        else
          some (intLexResult ds, ⟨pos, pos + ds.length⟩, pos + ds.length, rest1)
      | _ =>
        some (intLexResult ds, ⟨pos, pos + ds.length⟩, pos + ds.length, rest1)
    else if isIdentStart c then
      let (ws, rest1) := takeWhileCh isIdentCont (c :: rest)
      some (.ok (identOrKeyword (String.mk ws)), ⟨pos, pos + ws.length⟩, pos + ws.length, rest1)
    else if c = '"' then
      match scanStr rest with
      | some (n, rest1) =>
        some (.ok (.stringLiteral (String.mk (List.take (n + 1) (c :: rest)))),
              ⟨pos, pos + n + 1⟩, pos + n + 1, rest1)
      | none => some (.error .other, ⟨pos, pos + 1⟩, pos + 1, rest)
    else if c = '=' then
      match rest with
      | '=' :: r => some (.ok .equals, ⟨pos, pos + 2⟩, pos + 2, r)
      | _ => some (.ok .assign, ⟨pos, pos + 1⟩, pos + 1, rest)
    else if c = '-' then
      match rest with
      | '>' :: r => some (.ok .rightArrow, ⟨pos, pos + 2⟩, pos + 2, r)
      | _ => some (.ok .minus, ⟨pos, pos + 1⟩, pos + 1, rest)
    else if c = '!' then
      match rest with
      | '=' :: r => some (.ok .notEquals, ⟨pos, pos + 2⟩, pos + 2, r)
      | _ => some (.error .other, ⟨pos, pos + 1⟩, pos + 1, rest)
    else if c = '&' then
      match rest with
      | '&' :: r => some (.ok .andOp, ⟨pos, pos + 2⟩, pos + 2, r)
      | _ => some (.error .other, ⟨pos, pos + 1⟩, pos + 1, rest)
    else if c = '|' then
      match rest with
      | '|' :: r => some (.ok .orOp, ⟨pos, pos + 2⟩, pos + 2, r)
      | _ => some (.error .other, ⟨pos, pos + 1⟩, pos + 1, rest)
    else if c = '+' then some (.ok .plus, ⟨pos, pos + 1⟩, pos + 1, rest)
    else if c = '*' then some (.ok .star, ⟨pos, pos + 1⟩, pos + 1, rest)
    else if c = '/' then some (.ok .slash, ⟨pos, pos + 1⟩, pos + 1, rest)
    else if c = '<' then some (.ok .lessThan, ⟨pos, pos + 1⟩, pos + 1, rest)
    else if c = '>' then some (.ok .greaterThan, ⟨pos, pos + 1⟩, pos + 1, rest)
    else if c = '(' then some (.ok .lparen, ⟨pos, pos + 1⟩, pos + 1, rest)
    else if c = ')' then some (.ok .rparen, ⟨pos, pos + 1⟩, pos + 1, rest)
    else if c = '\x7b' then some (.ok .lbrace, ⟨pos, pos + 1⟩, pos + 1, rest)
    else if c = '\x7d' then some (.ok .rbrace, ⟨pos, pos + 1⟩, pos + 1, rest)
    else if c = '[' then some (.ok .lbracket, ⟨pos, pos + 1⟩, pos + 1, rest)
    else if c = ']' then some (.ok .rbracket, ⟨pos, pos + 1⟩, pos + 1, rest)
    else if c = ';' then some (.ok .semicolon, ⟨pos, pos + 1⟩, pos + 1, rest)
    else if c = ':' then some (.ok .colon, ⟨pos, pos + 1⟩, pos + 1, rest)
    else if c = ',' then some (.ok .comma, ⟨pos, pos + 1⟩, pos + 1, rest)
    else if c = '.' then some (.ok .period, ⟨pos, pos + 1⟩, pos + 1, rest)
    else some (.error .other, ⟨pos, pos + 1⟩, pos + 1, rest)

/-- Runs the tokenizer to the end of input; `fuel` bounds the number of
steps (each step consumes at least one character, so `input.length` steps
always suffice). -/
def tokenizeAux : Nat → Nat → List Char → List (Except LexerError Token × Span)
  | 0, _, _ => []
  | fuel + 1, pos, input =>
    match nextToken pos input with
    | none => []
    | some (r, sp, pos', rest) => (r, sp) :: tokenizeAux fuel pos' rest

/-- The full token stream of a source text, as the lazy logos iterator would
produce it when driven to exhaustion. -/
def tokenize (input : List Char) : List (Except LexerError Token × Span) :=
  tokenizeAux input.length 0 input

/-! Syntax tree (src/ast.rs).  Leaf node structs keep their source shapes;
the recursive node structs (`BinaryOp`, `FunctionCall`, `BlockExpression`,
`IfExpression`, and the `Statement` payload structs) are flattened into the
constructors of the mutual inductive, with one constructor argument per
source struct field, in field order. -/

/-- `ast::Identifier` - named `AstIdentifier` to keep it apart from the
`Token::Identifier` variant. -/
structure AstIdentifier where
  name : String
  span : Span
deriving DecidableEq, Repr

/-- `ast::IntegerLiteral` -/
structure IntegerLiteral where
  value : Int
  span : Span
deriving DecidableEq, Repr

/-- `ast::FloatLiteral` -/
structure FloatLiteral where
  value : F64
  span : Span
deriving DecidableEq, Repr

/-- `ast::StringLiteral` -/
structure StringLiteral where
  value : String
  span : Span
deriving DecidableEq, Repr

/-- `ast::BooleanLiteral` -/
structure BooleanLiteral where
  value : Bool
  span : Span
deriving DecidableEq, Repr

/-- `ast::BinaryOperator` -/
inductive BinaryOperator where
  | add | subtract | multiply | divide
  | equals | notEquals | lessThan | greaterThan
  | andOp | orOp
deriving DecidableEq, Repr

/-- `ast::Parameter` -/
structure Parameter where
  identifier : AstIdentifier
  declaredType : AstIdentifier
  span : Span
deriving DecidableEq, Repr

/-- `ast::NamedFieldDeclaration` -/
structure NamedFieldDeclaration where
  identifier : AstIdentifier
  declaredType : AstIdentifier
  span : Span
deriving DecidableEq, Repr

/-- `ast::TupleFieldDeclaration` -/
structure TupleFieldDeclaration where
  declaredType : AstIdentifier
  span : Span
deriving DecidableEq, Repr

/-- `ast::StructDeclaration` -/
inductive StructDeclaration where
  | namedStruct (identifier : AstIdentifier) (fields : List NamedFieldDeclaration) (span : Span)
  | tupleStruct (identifier : AstIdentifier) (fields : List TupleFieldDeclaration) (span : Span)
  | unitStruct (identifier : AstIdentifier) (span : Span)
deriving DecidableEq, Repr

mutual

/-- `ast::Expression`.  `binaryOp` carries `BinaryOp`'s fields
(operator, left, right, span, inferred_type); `functionCall`,
`blockExpression` and `ifExpression` likewise carry their struct's fields;
`BlockExpression` appears as the `blockStatements`/`blockFinal`/
`blockInferredType`/`blockSpan` argument groups of `ifExpression`'s
branches via `blockExpression` nodes. -/
inductive Expression where
  | binaryOp (operator : BinaryOperator) (left : Expression) (right : Expression)
      (span : Span) (inferredType : Option AstIdentifier)
  | functionCall (functionName : AstIdentifier) (arguments : List Expression)
      (span : Span) (inferredType : Option AstIdentifier)
  | blockExpression (statements : List Statement) (finalExpression : Option Expression)
      (inferredType : Option AstIdentifier) (span : Span)
  | ifExpression (condition : Expression) (thenBranch : Expression)
      (elseBranch : Option Expression) (inferredType : Option AstIdentifier) (span : Span)
  | identifier (i : AstIdentifier)
  | integerLiteral (i : IntegerLiteral)
  | floatLiteral (f : FloatLiteral)
  | stringLiteral (s : StringLiteral)
  | booleanLiteral (b : BooleanLiteral)

/-- `ast::Statement`.  `variableDeclaration`, `functionDeclaration`,
`expressionStatement`, `returnStatement` and `breakStatement` carry the
fields of their payload structs in order. -/
inductive Statement where
  | variableDeclaration (identifier : AstIdentifier) (initializer : Expression) (span : Span)
  | functionDeclaration (identifier : AstIdentifier) (parameters : List Parameter)
      (returnType : AstIdentifier) (body : List Statement) (span : Span)
  | structDeclaration (s : StructDeclaration)
  | expressionStatement (expression : Expression) (span : Span)
  | returnStatement (value : Option Expression) (span : Span)
  | breakStatement (value : Option Expression) (span : Span)

end

/-- `ast::Program` -/
structure Program where
  statements : List Statement
  span : Span

/-- `impl Spanned for Expression` (src/ast.rs lines 18-33). -/
def Expression.span : Expression → Span
  | .binaryOp _ _ _ sp _ => sp
  | .functionCall _ _ sp _ => sp
  | .blockExpression _ _ _ sp => sp
  | .ifExpression _ _ _ _ sp => sp
  | .identifier i => i.span
  | .integerLiteral i => i.span
  | .floatLiteral f => f.span
  | .stringLiteral s => s.span
  | .booleanLiteral b => b.span

/-- `impl Spanned for StructDeclaration` (src/ast.rs lines 184-192). -/
def StructDeclaration.span : StructDeclaration → Span
  | .namedStruct _ _ sp => sp
  | .tupleStruct _ _ sp => sp
  | .unitStruct _ sp => sp

/-- `impl Spanned for Statement` (src/ast.rs lines 126-141). -/
def Statement.span : Statement → Span
  | .variableDeclaration _ _ sp => sp
  | .functionDeclaration _ _ _ _ sp => sp
  | .structDeclaration s => s.span
  | .expressionStatement _ sp => sp
  | .returnStatement _ sp => sp
  | .breakStatement _ sp => sp

/-! Parser (src/parser/mod.rs). -/

/-- `ParserError` (src/parser/mod.rs lines 18-35). -/
inductive ParserError where
  | lexerError (e : LexerError)
  | unexpectedToken (expected : String) (found : Option Token) (span : Span)
  | unexpectedEof
deriving DecidableEq, Repr

/-- The `format!("\x7b:?\x7d", expected)` Debug rendering of the token
passed to `consume`; only unit variants are ever passed. -/
def tokenDebug : Token → String
  | .kTrue => "True" | .kFalse => "False" | .kLet => "Let" | .kMut => "Mut"
  | .kType => "Type" | .kStruct => "Struct" | .kFn => "Fn" | .kWhile => "While"
  | .kLoop => "Loop" | .kFor => "For" | .kIf => "If" | .kElse => "Else"
  | .kReturn => "Return"
  | .plus => "Plus" | .minus => "Minus" | .star => "Star" | .slash => "Slash"
  | .assign => "Assign" | .equals => "Equals" | .notEquals => "NotEquals"
  | .lessThan => "LessThan" | .greaterThan => "GreaterThan"
  | .andOp => "And" | .orOp => "Or"
  | .lparen => "LParen" | .rparen => "RParen" | .lbrace => "LBrace"
  | .rbrace => "RBrace" | .lbracket => "LBracket" | .rbracket => "RBracket"
  | .semicolon => "Semicolon" | .colon => "Colon" | .comma => "Comma"
  | .period => "Period" | .rightArrow => "RightArrow"
  | .identifier n => "Identifier(" ++ n ++ ")"
  | .integerLiteral v => "IntegerLiteral(" ++ toString v ++ ")"
  | .floatLiteral f => "FloatLiteral(" ++ f.repr ++ ")"
  | .stringLiteral s => "String(" ++ s ++ ")"

/-- The `Parser` state (src/parser/mod.rs lines 37-40): the tokens not yet
pulled from the lexer, the `current` lookahead, the span the lexer would
report from `lexer.span()` (the span of the most recently pulled token, or
`0..0` initially), and the `len..len` span logos reports once the stream is
exhausted. -/
structure ParserState where
  rest : List (Except LexerError Token × Span)
  current : Option (Token × Span)
  lexerSpan : Span
  eofSpan : Span
deriving Repr

/-- Outcome of a parser method: `Ok`, a returned `ParserError`, a process
abort through `todo!`, or fuel exhaustion of the embedding (which a
sufficiently large fuel makes unreachable). -/
inductive PResult (α : Type) where
  | ok (a : α)
  | err (e : ParserError)
  | panicked
  | outOfFuel

/-- Sequencing of parser steps: the `?` operator on parser results. -/
def PResult.bind {α β : Type} : PResult α → (α → PResult β) → PResult β
  | .ok a, f => f a
  | .err e, _ => .err e
  | .panicked, _ => .panicked
  | .outOfFuel, _ => .outOfFuel

/-- Maps the value inside an `ok` parser result. -/
def PResult.map {α β : Type} (f : α → β) : PResult α → PResult β
  | .ok a => .ok (f a)
  | .err e => .err e
  | .panicked => .panicked
  | .outOfFuel => .outOfFuel

/-- `Parser::peek` (src/parser/mod.rs lines 69-71). -/
def ParserState.peek (st : ParserState) : Option Token :=
  st.current.map (·.1)

/-- `Parser::current_span` (src/parser/mod.rs lines 144-146): `lexer.span()`. -/
def ParserState.currentSpan (st : ParserState) : Span :=
  st.lexerSpan

/-- `Parser::advance` (src/parser/mod.rs lines 57-67): pulls the next token
from the lexer, propagating a lexical error; at end of input sets `current`
to `None` (logos then reports the end-of-input span). -/
def ParserState.advance (st : ParserState) : Except LexerError ParserState :=
  match st.rest with
  | [] => .ok { st with rest := [], current := none, lexerSpan := st.eofSpan }
  | (r, sp) :: rest' =>
    match r with
    | .error e => .error e
    | .ok tok => .ok { st with rest := rest', current := some (tok, sp), lexerSpan := sp }

/-- `self.advance()?` inside a parser method: a lexical error converts into
`ParserError::LexerError` via `From`. -/
def advanceP (st : ParserState) : PResult ParserState :=
  match st.advance with
  | .ok st' => .ok st'
  | .error e => .err (.lexerError e)

/-- `Parser::consume` (src/parser/mod.rs lines 73-92). -/
def consume (st : ParserState) (expected : Token) : PResult (Span × ParserState) :=
  match st.current with
  | some (token, span) =>
    if token = expected then
      (advanceP st).bind fun st' => .ok (span, st')
    else
      .err (.unexpectedToken (tokenDebug expected) (some token) span)
  | none => .err (.unexpectedToken (tokenDebug expected) none st.currentSpan)

/-- `Parser::consume_identifier` (src/parser/mod.rs lines 94-105). -/
def consume_identifier (st : ParserState) : PResult (AstIdentifier × ParserState) :=
  match st.current with
  | some (.identifier name, span) =>
    (advanceP st).bind fun st' => .ok (⟨name, span⟩, st')
  | _ => .err (.unexpectedToken "identifier" st.peek st.currentSpan)

/-- `Parser::parse_integer_literal` (src/parser/mod.rs lines 418-427);
any other current token hits `todo!`. -/
def parse_integer_literal (st : ParserState) : PResult (IntegerLiteral × ParserState) :=
  match st.current with
  | some (.integerLiteral value, span) =>
    (advanceP st).bind fun st' => .ok (⟨value, span⟩, st')
  | _ => .panicked

/-- `Parser::parse_float_literal` (src/parser/mod.rs lines 429-438);
any other current token hits `todo!`. -/
def parse_float_literal (st : ParserState) : PResult (FloatLiteral × ParserState) :=
  match st.current with
  | some (.floatLiteral value, span) =>
    (advanceP st).bind fun st' => .ok (⟨value, span⟩, st')
  | _ => .panicked

/-- `Parser::parse_expression` (src/parser/mod.rs lines 367-416): a primary
expression is an integer literal, float literal or identifier (`todo!` on
anything else); when the next token is `+` or `*` the parser recurses into a
full `parse_expression` for the right-hand side and combines the spans; a
next token of `-` or `/` matches `is_binary_op` but falls into the final
`todo!` arm. -/
def parse_expression : Nat → ParserState → PResult (Expression × ParserState)
  | 0, _ => .outOfFuel
  | fuel + 1, st =>
    let firstR : PResult (Expression × ParserState) :=
      match st.peek with
      | some (.integerLiteral _) => (parse_integer_literal st).map fun (i, s) => (Expression.integerLiteral i, s)
      | some (.floatLiteral _) => (parse_float_literal st).map fun (f, s) => (Expression.floatLiteral f, s)
      | some (.identifier _) => (consume_identifier st).map fun (i, s) => (Expression.identifier i, s)
      | _ => .panicked
    firstR.bind fun (first, st1) =>
    let isBinaryOp : Bool :=
      match (st1.current.map Prod.fst : Option Token) with
      | some .plus | some .minus | some .star | some .slash => true
      | _ => false
    if isBinaryOp then
      match st1.current with
      | some (.plus, _) =>
        (consume st1 .plus).bind fun (_, st2) =>
        (parse_expression fuel st2).bind fun (second, st3) =>
        let span := first.span.combine second.span
        .ok (.binaryOp .add first second span none, st3)
      | some (.star, _) =>
        (consume st1 .star).bind fun (_, st2) =>
        (parse_expression fuel st2).bind fun (second, st3) =>
        let span := first.span.combine second.span
        .ok (.binaryOp .multiply first second span none, st3)
      | _ => .panicked
    else
      .ok (first, st1)

/-- `Parser::parse_variable_declaration` (src/parser/mod.rs lines 148-164). -/
def parse_variable_declaration (fuel : Nat) (st : ParserState) : PResult (Statement × ParserState) :=
  (consume st .kLet).bind fun (letSpan, st1) =>
  (consume_identifier st1).bind fun (identifier, st2) =>
  (consume st2 .assign).bind fun (_, st3) =>
  (parse_expression fuel st3).bind fun (initializer, st4) =>
  (consume st4 .semicolon).bind fun (semiSpan, st5) =>
  .ok (.variableDeclaration identifier initializer ⟨letSpan.start, semiSpan.stop⟩, st5)

/-- The parameter loop of `parse_function_declaration`
(src/parser/mod.rs lines 173-191): parses `IDENT : TYPE` pairs while the
lookahead is an identifier, with no separator. -/
def parse_fn_params : Nat → ParserState → List Parameter → PResult (List Parameter × ParserState)
  | 0, _, _ => .outOfFuel
  | fuel + 1, st, acc =>
    match st.peek with
    | some (.identifier _) =>
      (consume_identifier st).bind fun (identifier, st1) =>
      (consume st1 .colon).bind fun (_, st2) =>
      (consume_identifier st2).bind fun (declaredType, st3) =>
      let span : Span := ⟨identifier.span.start, declaredType.span.stop⟩
      parse_fn_params fuel st3 (acc ++ [⟨identifier, declaredType, span⟩])
    | _ => .ok (acc, st)

/-- The tuple-field loop of `parse_struct_declaration`
(src/parser/mod.rs lines 237-266): advances, then dispatches on the new
current token - `)` ends the loop, `,` continues, an identifier is a field,
any other token is `UnexpectedToken`, end of input is `UnexpectedEof`. -/
def parse_tuple_fields : Nat → ParserState → List TupleFieldDeclaration →
    PResult (List TupleFieldDeclaration × ParserState)
  | 0, _, _ => .outOfFuel
  | fuel + 1, st, acc =>
    (advanceP st).bind fun st1 =>
    match st1.current with
    | some (.rparen, _) => .ok (acc, st1)
    | some (.comma, _) => parse_tuple_fields fuel st1 acc
    | some (.identifier name, span) =>
      parse_tuple_fields fuel st1 (acc ++ [⟨⟨name, span⟩, span⟩])
    | some (other, span) =>
      .err (.unexpectedToken "`)` or identifier" (some other) span)
    | none => .err .unexpectedEof

/-- The named-field loop of `parse_struct_declaration`
(src/parser/mod.rs lines 287-312): advances, then dispatches on the new
current token - `RBrace` ends the loop yielding its span end, an identifier
starts a `IDENT : TYPE` field, any other token is `UnexpectedToken`, end of
input is `UnexpectedEof`. -/
def parse_named_fields : Nat → ParserState → List NamedFieldDeclaration →
    PResult ((List NamedFieldDeclaration × Nat) × ParserState)
  | 0, _, _ => .outOfFuel
  | fuel + 1, st, acc =>
    (advanceP st).bind fun st1 =>
    match st1.current with
    | some (.rbrace, span) => .ok ((acc, span.stop), st1)
    | some (.identifier _, span) =>
      (consume_identifier st1).bind fun (identifier, st2) =>
      (consume st2 .colon).bind fun (_, st3) =>
      (consume_identifier st3).bind fun (declaredType, st4) =>
      parse_named_fields fuel st4 (acc ++ [⟨identifier, declaredType, span⟩])
    | some (other, span) =>
      .err (.unexpectedToken "`)` or identifier" (some other) span)
    | none => .err .unexpectedEof

/-- `Parser::parse_struct_declaration` (src/parser/mod.rs lines 225-347). -/
def parse_struct_declaration (fuel : Nat) (st : ParserState) : PResult (Statement × ParserState) :=
  (consume st .kStruct).bind fun (structSpan, st1) =>
  (consume_identifier st1).bind fun (identifier, st2) =>
  match st2.current with
  | some (.lparen, _) =>
    (parse_tuple_fields fuel st2 []).bind fun (fields, st3) =>
    (consume st3 .rparen).bind fun (_, st4) =>
    (consume st4 .semicolon).bind fun (semiSpan, st5) =>
    .ok (.structDeclaration (.tupleStruct identifier fields ⟨structSpan.start, semiSpan.stop⟩), st5)
  | some (.lbrace, _) =>
    (parse_named_fields fuel st2 []).bind fun ((fields, endStop), st3) =>
    (consume st3 .rbrace).bind fun (_, st4) =>
    .ok (.structDeclaration (.namedStruct identifier fields ⟨structSpan.start, endStop⟩), st4)
  | some (.semicolon, span) =>
    (advanceP st2).bind fun st3 =>
    .ok (.structDeclaration (.unitStruct identifier ⟨structSpan.start, span.stop⟩), st3)
  | some (other, span) =>
    .err (.unexpectedToken "`(` or `\x7b` or `;`" (some other) span)
  | none => .err .unexpectedEof

/-- `Parser::parse_return_statement` (src/parser/mod.rs lines 349-365);
note that in the no-value case the semicolon is inspected but not consumed. -/
def parse_return_statement (fuel : Nat) (st : ParserState) : PResult (Statement × ParserState) :=
  (consume st .kReturn).bind fun (span, st1) =>
  if st1.peek = some .semicolon then
    .ok (.returnStatement none span, st1)
  else
    (parse_expression fuel st1).bind fun (expression, st2) =>
    let span' := span.combine expression.span
    (consume st2 .semicolon).bind fun (_, st3) =>
    .ok (.returnStatement (some expression) span', st3)

mutual

/-- `Parser::parse_statement` (src/parser/mod.rs lines 128-142): dispatches
on the lookahead; any leading token other than `let`/`fn`/`struct`/`return`
hits `todo!`. -/
def parse_statement : Nat → ParserState → PResult (Statement × ParserState)
  | 0, _ => .outOfFuel
  | fuel + 1, st =>
    match st.peek with
    | some .kLet => parse_variable_declaration fuel st
    | some .kFn => parse_function_declaration fuel st
    | some .kStruct => parse_struct_declaration fuel st
    | some .kReturn => parse_return_statement fuel st
    | some _ => .panicked
    | none => .err (.unexpectedToken "statement" none st.currentSpan)

/-- `Parser::parse_function_declaration` (src/parser/mod.rs lines 166-223). -/
def parse_function_declaration : Nat → ParserState → PResult (Statement × ParserState)
  | 0, _ => .outOfFuel
  | fuel + 1, st =>
    (consume st .kFn).bind fun (fnSpan, st1) =>
    (consume_identifier st1).bind fun (identifier, st2) =>
    (consume st2 .lparen).bind fun (_, st3) =>
    (parse_fn_params fuel st3 []).bind fun (parameters, st4) =>
    (consume st4 .rparen).bind fun (_, st5) =>
    (consume st5 .rightArrow).bind fun (_, st6) =>
    (consume_identifier st6).bind fun (returnType, st7) =>
    (consume st7 .lbrace).bind fun (_, st8) =>
    (parse_fn_body fuel st8 []).bind fun (body, st9) =>
    (consume st9 .rbrace).bind fun (rbraceSpan, st10) =>
    .ok (.functionDeclaration identifier parameters returnType body
          ⟨fnSpan.start, rbraceSpan.stop⟩, st10)

/-- The body loop of `parse_function_declaration`
(src/parser/mod.rs lines 203-207): parses statements while the lookahead is
not `RBrace`. -/
def parse_fn_body : Nat → ParserState → List Statement → PResult (List Statement × ParserState)
  | 0, _, _ => .outOfFuel
  | fuel + 1, st, acc =>
    if st.peek ≠ some Token.rbrace then
      (parse_statement fuel st).bind fun (s, st1) =>
      parse_fn_body fuel st1 (acc ++ [s])
    else
      .ok (acc, st)

end

/-- The statement loop of `Parser::parse` (src/parser/mod.rs lines 110-114):
parses statements while tokens remain. -/
def parse_program_loop : Nat → ParserState → List Statement → PResult (List Statement × ParserState)
  | 0, _, _ => .outOfFuel
  | fuel + 1, st, acc =>
    match st.peek with
    | some _ =>
      (parse_statement fuel st).bind fun (s, st1) =>
      parse_program_loop fuel st1 (acc ++ [s])
    | none => .ok (acc, st)

/-- `Parser::parse` (src/parser/mod.rs lines 107-126) on a given token
stream: records the start of `lexer.span()` before the first `advance`,
parses statements until the stream is exhausted, and closes the program
span at the end of the final `lexer.span()`. -/
def parseTokens (ts : List (Except LexerError Token × Span)) (eofSp : Span) :
    PResult (Program × ParserState) :=
  let st0 : ParserState := { rest := ts, current := none, lexerSpan := ⟨0, 0⟩, eofSpan := eofSp }
  let programStart := st0.currentSpan.start
  (advanceP st0).bind fun st1 =>
  (parse_program_loop (4 * (ts.length + 1) + 8) st1 []).bind fun (stmts, st2) =>
  .ok ({ statements := stmts, span := ⟨programStart, st2.currentSpan.stop⟩ }, st2)

/-- `Parser::new(input).parse()`: tokenize, then parse. -/
def parseProgramSrc (src : List Char) : PResult Program :=
  (parseTokens (tokenize src) ⟨src.length, src.length⟩).map (·.1)

/-- Running `parse_expression` directly on a freshly advanced parser over
the token stream of `src` (the entry point the expression-level claims are
about). -/
def parseExpressionSrc (src : List Char) : PResult (Expression × ParserState) :=
  let ts := tokenize src
  let st0 : ParserState := { rest := ts, current := none, lexerSpan := ⟨0, 0⟩,
                             eofSpan := ⟨src.length, src.length⟩ }
  (advanceP st0).bind fun st1 =>
  parse_expression (4 * (ts.length + 1) + 8) st1

/-! Environment (src/runtime/environment.rs). -/

/-- `Value` (src/runtime/environment.rs lines 7-17); `structInstance`
carries the `StructInstance` fields (name, fields) in order. -/
inductive Value where
  | int (v : Int)
  | float (f : F64)
  | string (s : String)
  | bool (b : Bool)
  | unit
  | structInstance (name : String) (fields : List (String × Value))

/-- `EnvironmentError` (src/runtime/environment.rs lines 32-36). -/
inductive EnvironmentError where
  | variableNotFound (name : String)
  | variableAlreadyDeclared (name : String)
deriving DecidableEq

/-- One scope: a `HashMap<String, Value>`, modelled as an association list
where `insert` replaces any existing binding of the key. -/
def Scope := List (String × Value)

/-- `HashMap::insert`: binds `name` to `value`, replacing an existing
binding of the same name in this scope. -/
def Scope.insert (s : Scope) (name : String) (value : Value) : Scope :=
  (name, value) :: s.filter (fun p => p.1 ≠ name)

/-- `HashMap::get`. -/
def Scope.get (s : Scope) (name : String) : Option Value :=
  (s.find? (fun p => p.1 = name)).map Prod.snd

/-- `Environment` (src/runtime/environment.rs lines 52-55).  The Rust
`Vec` of scopes grows at its back, so the innermost scope is `last`; the
list here is kept innermost-first, i.e. the Vec reversed: the list head is
the Vec's `last`.  The Rust field is named `variables`; that name is a
reserved legacy command in Lean, so the field is `vars` here. -/
structure Environment where
  vars : List Scope

/-- `Environment::new` (src/runtime/environment.rs lines 58-65): a single
empty top-level scope. -/
def Environment.new : Environment := ⟨[[]]⟩

/-- `Environment::push_scope` (src/runtime/environment.rs lines 81-84). -/
def push_scope (env : Environment) : Environment :=
  ⟨[] :: env.vars⟩

/-- `Environment::pop_scope` (src/runtime/environment.rs lines 86-96):
removes the innermost scope only when more than one scope exists;
otherwise it logs a warning and leaves the stack unchanged. -/
def pop_scope (env : Environment) : Environment :=
  if env.vars.length > 1 then ⟨env.vars.tail⟩ else env

/-- Outcome of an environment method returning
`Result<(), EnvironmentError>`, with the resulting environment made
explicit; `panicked` models the `expect` in `scope_mut` firing on an empty
scope stack. -/
inductive EnvOutcome where
  | ok (env : Environment)
  | err (e : EnvironmentError)
  | panicked

/-- `Environment::declare_variable` (src/runtime/environment.rs lines
99-103): inserts into the current innermost scope and returns `Ok(())`. -/
def declare_variable (env : Environment) (name : String) (value : Value) : EnvOutcome :=
  match env.vars with
  | [] => .panicked
  | s :: rest => .ok ⟨s.insert name value :: rest⟩

/-- `Environment::set_variable` (src/runtime/environment.rs lines 119-123):
despite its doc comment, it inserts into the current innermost scope and
returns `Ok(())`, exactly as `declare_variable`. -/
def set_variable (env : Environment) (name : String) (value : Value) : EnvOutcome :=
  match env.vars with
  | [] => .panicked
  | s :: rest => .ok ⟨s.insert name value :: rest⟩

/-- `Environment::get_variable` (src/runtime/environment.rs lines 107-115):
searches the scopes from innermost to outermost. -/
def get_variable (env : Environment) (name : String) : Option Value :=
  go env.vars
where
  /-- the `for scope in self.variables.iter().rev()` loop -/
  go : List Scope → Option Value
    | [] => none
    | s :: rest =>
      match s.get name with
      | some v => some v
      | none => go rest

/-! Runtime (src/runtime/mod.rs). -/

/-- `RuntimeError` (src/runtime/mod.rs lines 15-19). -/
inductive RuntimeError where
  | parserError (e : ParserError)
  | environmentError (e : EnvironmentError)

/-- Outcome of an evaluation step: a value (or, for program execution, the
resulting environment), a returned `RuntimeError`, a `panic!`/`todo!`
abort, or fuel exhaustion propagated from the parser embedding. -/
inductive ROutcome (α : Type) where
  | ok (a : α)
  | err (e : RuntimeError)
  | panicked
  | outOfFuel

/-- `Runtime::evaluate_expression` (src/runtime/mod.rs lines 76-85): only
integer literals are handled; every other expression kind hits
`panic!("Unhandled expression type")`. -/
def evaluate_expression (_env : Environment) : Expression → ROutcome Value
  | .integerLiteral i => .ok (.int i.value)
  | _ => .panicked

/-- The statement loop of `Runtime::execute_program`
(src/runtime/mod.rs lines 60-71): a `VariableDeclaration` evaluates its
initializer and declares it; every other statement kind only logs
`error!("Unhandled statement type")` and is skipped. -/
def execute_statements (env : Environment) : List Statement → ROutcome Environment
  | [] => .ok env
  | stmt :: rest =>
    match stmt with
    | .variableDeclaration identifier initializer _ =>
      match evaluate_expression env initializer with
      | .ok value =>
        match declare_variable env identifier.name value with
        | .ok env' => execute_statements env' rest
        | .err e => .err (.environmentError e)
        | .panicked => .panicked
      | .err e => .err e
      | .panicked => .panicked
      | .outOfFuel => .outOfFuel
    | _ => execute_statements env rest

/-- `Runtime::execute_program` (src/runtime/mod.rs lines 53-74), with the
runtime's owned environment made explicit. -/
def execute_program (env : Environment) (program : Program) : ROutcome Environment :=
  execute_statements env program.statements

/-- `Runtime::execute` (src/runtime/mod.rs lines 46-51) from a fresh
`Runtime::new`: parse the source, then execute the program against the
fresh environment; a parser error converts into
`RuntimeError::ParserError`. -/
def runtimeExecuteSrc (src : List Char) : ROutcome Environment :=
  match parseProgramSrc src with
  | .ok program => execute_program Environment.new program
  | .err e => .err (.parserError e)
  | .panicked => .panicked
  | .outOfFuel => .outOfFuel

/-! Auxiliary observations used by the claims. -/

/-- The span of the expression inside a successful expression-parse result. -/
def exprSpanOf : PResult (Expression × ParserState) → Option Span
  | .ok (e, _) => some e.span
  | _ => none

/-- Discriminates the `Statement::VariableDeclaration` variant. -/
def Statement.isVariableDeclaration : Statement → Bool
  | .variableDeclaration _ _ _ => true
  | _ => false

/-- Discriminates the `Expression::IntegerLiteral` variant. -/
def Expression.isIntegerLiteral : Expression → Bool
  | .integerLiteral _ => true
  | _ => false

/-- A character list matching the identifier regex `[a-zA-Z_][a-zA-Z0-9_]*`. -/
def isIdentList : List Char → Bool
  | [] => false
  | c :: cs => isIdentStart c && cs.all isIdentCont

/-- A character that begins at least one tokenization rule: whitespace (a
skip rule), a digit, an identifier character, a string quote, or the first
character of an operator or delimiter. -/
def startsRule (c : Char) : Bool :=
  isWsCh c || isDigitCh c || isIdentStart c || c = '"' ||
  c = '=' || c = '-' || c = '!' || c = '&' || c = '|' ||
  c = '+' || c = '*' || c = '/' || c = '<' || c = '>' ||
  c = '(' || c = ')' || c = '\x7b' || c = '\x7d' || c = '[' || c = ']' ||
  c = ';' || c = ':' || c = ',' || c = '.'

/-- The operations exposed by `Environment` that can change the scope
stack. -/
inductive EnvOp where
  | push
  | pop
  | declare (name : String) (value : Value)
  | set (name : String) (value : Value)

/-- Applies one environment operation (for the `Ok`-returning operations
the resulting environment; `declare_variable`/`set_variable` always return
`Ok` on a non-empty scope stack). -/
def applyEnvOp (env : Environment) : EnvOp → Environment
  | .push => push_scope env
  | .pop => pop_scope env
  | .declare n v =>
    match declare_variable env n v with
    | .ok env' => env'
    | _ => env
  | .set n v =>
    match set_variable env n v with
    | .ok env' => env'
    | _ => env

/-- Runs a sequence of environment operations from a starting environment. -/
def runEnvOps (ops : List EnvOp) (env : Environment) : Environment :=
  ops.foldl applyEnvOp env

/-! Tokenizer lemmas: how `nextToken` behaves on a maximal run followed by
a non-continuing character, and how `tokenizeAux` steps. -/

/-- `takeWhileCh` splits exactly at the boundary between a prefix
satisfying `p` and a suffix whose head does not. -/
theorem takeWhileCh_split (p : Char → Bool) (l rest : List Char)
    (hl : ∀ c ∈ l, p c = true)
    (hr : ∀ c, rest.head? = some c → p c = false) :
    takeWhileCh p (l ++ rest) = (l, rest) := by
  induction l with
  | nil =>
    simp only [List.nil_append]
    cases rest with
    | nil => rfl
    | cons c r =>
      have hc := hr c rfl
      simp [takeWhileCh, hc]
  | cons a l' ih =>
    have ha := hl a (List.mem_cons_self a l')
    have hl' := fun c hc => hl c (List.mem_cons_of_mem a hc)
    simp [takeWhileCh, ha, ih hl']

/-- A digit is not lexer whitespace. -/
theorem digit_not_ws (c : Char) (h : isDigitCh c = true) : isWsCh c = false := by
  simp only [isDigitCh, Bool.and_eq_true, decide_eq_true_eq] at h
  simp only [isWsCh, Bool.or_eq_false_iff, decide_eq_false_iff_not]
  omega

/-- An identifier start character is not lexer whitespace. -/
theorem identStart_not_ws (c : Char) (h : isIdentStart c = true) : isWsCh c = false := by
  simp only [isIdentStart, Bool.or_eq_true, Bool.and_eq_true, decide_eq_true_eq] at h
  simp only [isWsCh, Bool.or_eq_false_iff, decide_eq_false_iff_not]
  omega

/-- An identifier start character is not a digit. -/
theorem identStart_not_digit (c : Char) (h : isIdentStart c = true) : isDigitCh c = false := by
  simp only [isIdentStart, Bool.or_eq_true, Bool.and_eq_true, decide_eq_true_eq] at h
  simp only [isDigitCh, Bool.and_eq_false_iff, decide_eq_false_iff_not]
  omega

/-- An identifier start character is an identifier continuation character. -/
theorem identStart_cont (c : Char) (h : isIdentStart c = true) : isIdentCont c = true := by
  simp [isIdentCont, h]

/-- `nextToken` on an identifier run followed by a non-continuation
character (or end of input) produces the keyword-or-identifier token of
exactly that run. -/
theorem nextToken_identRun (pos : Nat) (c0 : Char) (cs rest : List Char)
    (h0 : isIdentStart c0 = true) (hcs : ∀ c ∈ cs, isIdentCont c = true)
    (hr : ∀ c, rest.head? = some c → isIdentCont c = false) :
    nextToken pos ((c0 :: cs) ++ rest) =
      some (.ok (identOrKeyword (String.mk (c0 :: cs))),
            ⟨pos, pos + (c0 :: cs).length⟩, pos + (c0 :: cs).length, rest) := by
  have hws := identStart_not_ws c0 h0
  have hdg := identStart_not_digit c0 h0
  have hsp : takeWhileCh isIdentCont ((c0 :: cs) ++ rest) = (c0 :: cs, rest) :=
    takeWhileCh_split _ _ _
      (by intro c hc
          rcases List.mem_cons.mp hc with h | h
          · subst h; exact identStart_cont _ h0
          · exact hcs c h)
      hr
  rw [List.cons_append] at hsp
  simp [nextToken, hws, hdg, h0, hsp]

/-- `nextToken` on a digit run reaching the end of input produces the
`i64`-parse result of exactly that run. -/
theorem nextToken_digits_end (pos : Nat) (ds : List Char) (hne : ds ≠ [])
    (hds : ∀ c ∈ ds, isDigitCh c = true) :
    nextToken pos ds =
      some (intLexResult ds, ⟨pos, pos + ds.length⟩, pos + ds.length, []) := by
  cases ds with
  | nil => exact absurd rfl hne
  | cons d ds' =>
    have hd := hds d (List.mem_cons_self d ds')
    have hws := digit_not_ws d hd
    have hsp : takeWhileCh isDigitCh ((d :: ds') ++ []) = (d :: ds', []) :=
      takeWhileCh_split _ _ _ hds (by intro c hc; simp at hc)
    rw [List.append_nil] at hsp
    simp [nextToken, hws, hd, hsp]

/-- `nextToken` on a digit run followed by `;` produces the `i64`-parse
result of exactly that run (the float lookahead does not fire). -/
theorem nextToken_digits_semi (pos : Nat) (ds r : List Char) (hne : ds ≠ [])
    (hds : ∀ c ∈ ds, isDigitCh c = true) :
    nextToken pos (ds ++ ';' :: r) =
      some (intLexResult ds, ⟨pos, pos + ds.length⟩, pos + ds.length, ';' :: r) := by
  cases ds with
  | nil => exact absurd rfl hne
  | cons d ds' =>
    have hd := hds d (List.mem_cons_self d ds')
    have hws := digit_not_ws d hd
    have hsp : takeWhileCh isDigitCh ((d :: ds') ++ ';' :: r) = (d :: ds', ';' :: r) :=
      takeWhileCh_split _ _ _ hds (by intro c hc; simp at hc; subst hc; rfl)
    rw [List.cons_append] at hsp
    simp [nextToken, hws, hd, hsp]

/-- `nextToken` skips a leading space. -/
theorem nextToken_space (pos : Nat) (r : List Char) :
    nextToken pos (' ' :: r) = nextToken (pos + 1) r := by
  have h : isWsCh ' ' = true := by decide
  simp [nextToken, h]

/-- One positive-fuel step of `tokenizeAux`. -/
theorem tokenizeAux_step (fuel pos : Nat) (input : List Char)
    (r : Except LexerError Token) (sp : Span) (pos' : Nat) (rest : List Char)
    (hf : 0 < fuel) (h : nextToken pos input = some (r, sp, pos', rest)) :
    tokenizeAux fuel pos input = (r, sp) :: tokenizeAux (fuel - 1) pos' rest := by
  cases fuel with
  | zero => omega
  | succ f => simp [tokenizeAux, h]

/-- `tokenizeAux` on exhausted input yields nothing. -/
theorem tokenizeAux_nil (fuel pos : Nat) : tokenizeAux fuel pos [] = [] := by
  cases fuel with
  | zero => rfl
  | succ f => rfl

/-- `nextToken` on `=` followed by a space produces `Assign` (the `==`
lookahead does not fire). -/
theorem nextToken_assign_space (pos : Nat) (r : List Char) :
    nextToken pos ('=' :: ' ' :: r) =
      some (.ok .assign, ⟨pos, pos + 1⟩, pos + 1, ' ' :: r) := by
  have h1 : isWsCh '=' = false := by decide
  have h2 : isDigitCh '=' = false := by decide
  have h3 : isIdentStart '=' = false := by decide
  simp [nextToken, h1, h2, h3]

/-- `nextToken` on `;` produces `Semicolon`. -/
theorem nextToken_semicolon (pos : Nat) (r : List Char) :
    nextToken pos (';' :: r) =
      some (.ok .semicolon, ⟨pos, pos + 1⟩, pos + 1, r) := by
  have h1 : isWsCh ';' = false := by decide
  have h2 : isDigitCh ';' = false := by decide
  have h3 : isIdentStart ';' = false := by decide
  simp [nextToken, h1, h2, h3]

/-- A character beginning no rule falls through every branch of
`nextToken` to the default lexical error. -/
theorem nextToken_noRule (pos : Nat) (c : Char) (h : startsRule c = false) :
    nextToken pos [c] = some (.error .other, ⟨pos, pos + 1⟩, pos + 1, []) := by
  simp only [startsRule, Bool.or_eq_false_iff, decide_eq_false_iff_not] at h
  obtain ⟨⟨⟨⟨⟨⟨⟨⟨⟨⟨⟨⟨⟨⟨⟨⟨⟨⟨⟨⟨⟨⟨⟨hws, hdg⟩, his⟩, hq⟩, heq⟩, hmn⟩, hbg⟩, ham⟩,
    hpp⟩, hpl⟩, hst⟩, hsl⟩, hlt⟩, hgt⟩, hlp⟩, hrp⟩, hlb⟩, hrb⟩, hlk⟩, hrk⟩,
    hsc⟩, hcl⟩, hcm⟩, hpd⟩ := h
  simp [nextToken, hws, hdg, his, hq, heq, hmn, hbg, ham, hpp, hpl, hst, hsl,
        hlt, hgt, hlp, hrp, hlb, hrb, hlk, hrk, hsc, hcl, hcm, hpd]

/-! Claim theorems. -/

/-- C1, counterexample: parsing the source text `a + b` as an expression
yields a `BinaryOp` whose span is `0..1` - its end is `a`'s span end (1),
not `b`'s span end (5) as the claim states, because `Span::combine` takes
the minimum of both ends. -/
theorem c1_counterexample :
    exprSpanOf (parseExpressionSrc "a + b".toList) = some ⟨0, 1⟩ ∧
    exprSpanOf (parseExpressionSrc "a + b".toList) ≠ some ⟨0, 5⟩ := by
  exact ⟨rfl, by decide⟩

/-- C1, amended: for all operand and operator token spans, parsing the
token stream of `a + b` as an expression yields
`BinaryOp(Add, Identifier a, Identifier b)` whose span is
`Span::combine` of the two operand spans: its start is the minimum of both
starts (`a`'s start for in-order spans) and its end is the MINIMUM of both
ends (`a`'s end for in-order spans, not `b`'s). -/
theorem c1_amended (sa sp sb e : Span) :
    parse_expression 8
      ⟨[(.ok .plus, sp), (.ok (.identifier "b"), sb)], some (.identifier "a", sa), sa, e⟩ =
      .ok (.binaryOp .add (.identifier ⟨"a", sa⟩) (.identifier ⟨"b", sb⟩)
             (sa.combine sb) none,
           ⟨[], none, e, e⟩) := rfl

/-- C2: for every identifier (a non-keyword match of
`[a-zA-Z_][a-zA-Z0-9_]*`) and every digit sequence whose value is within
64-bit signed range, parsing the source text `let <ident> = <int>;`
yields a `Program` with exactly one statement - a `VariableDeclaration`
whose initializer is an `IntegerLiteral` with value `<int>` - and
executing that program against a fresh environment succeeds, after which
`get_variable` on `<ident>` yields `Int(<int>)`. -/
theorem c2_let_int (identC ds : List Char)
    (hid : isIdentList identC = true)
    (hkw : keywordOf (String.mk identC) = none)
    (hne : ds ≠ []) (hds : ∀ c ∈ ds, isDigitCh c = true)
    (hle : digitsToNat ds ≤ i64Max) :
    parseProgramSrc ('l' :: 'e' :: 't' :: ' ' ::
        (identC ++ (' ' :: '=' :: ' ' :: (ds ++ [';'])))) =
      .ok ⟨[.variableDeclaration
              ⟨String.mk identC, ⟨4, 4 + identC.length⟩⟩
              (.integerLiteral ⟨(digitsToNat ds : Int),
                 ⟨7 + identC.length, 7 + identC.length + ds.length⟩⟩)
              ⟨0, 8 + identC.length + ds.length⟩],
           ⟨0, 8 + identC.length + ds.length⟩⟩ ∧
    runtimeExecuteSrc ('l' :: 'e' :: 't' :: ' ' ::
        (identC ++ (' ' :: '=' :: ' ' :: (ds ++ [';'])))) =
      .ok ⟨[[(String.mk identC, Value.int (digitsToNat ds))]]⟩ ∧
    get_variable ⟨[[(String.mk identC, Value.int (digitsToNat ds))]]⟩
        (String.mk identC) = some (.int (digitsToNat ds)) := by
  cases identC with
  | nil => simp [isIdentList] at hid
  | cons c0 cs =>
  simp only [isIdentList, Bool.and_eq_true, List.all_eq_true] at hid
  obtain ⟨h0, hcs⟩ := hid
  set L := (c0 :: cs).length with hL
  set D := ds.length with hD
  set src : List Char :=
    'l' :: 'e' :: 't' :: ' ' :: ((c0 :: cs) ++ (' ' :: '=' :: ' ' :: (ds ++ [';'])))
    with hsrc
  have hlen : src.length = 8 + L + D := by
    simp [hsrc, hL, hD]
    omega
  -- the five tokenization steps
  have t1 : nextToken 0 src =
      some (.ok .kLet, ⟨0, 3⟩, 3, ' ' :: ((c0 :: cs) ++ (' ' :: '=' :: ' ' :: (ds ++ [';'])))) := by
    have h := nextToken_identRun 0 'l' ['e', 't']
      (' ' :: ((c0 :: cs) ++ (' ' :: '=' :: ' ' :: (ds ++ [';']))))
      (by decide) (by decide)
      (by intro c hc; simp only [List.head?_cons, Option.some.injEq] at hc; subst hc; decide)
    have hk : identOrKeyword (String.mk ['l', 'e', 't']) = Token.kLet := by decide
    rw [hk] at h
    simpa [hsrc] using h
  have t2 : nextToken 3 (' ' :: ((c0 :: cs) ++ (' ' :: '=' :: ' ' :: (ds ++ [';'])))) =
      some (.ok (.identifier (String.mk (c0 :: cs))), ⟨4, 4 + L⟩, 4 + L,
            ' ' :: '=' :: ' ' :: (ds ++ [';'])) := by
    rw [nextToken_space]
    have h := nextToken_identRun 4 c0 cs (' ' :: '=' :: ' ' :: (ds ++ [';'])) h0
      (fun c hc => hcs c hc)
      (by intro c hc; simp only [List.head?_cons, Option.some.injEq] at hc; subst hc; decide)
    rw [h, identOrKeyword, hkw]
    rfl
  have t3 : nextToken (4 + L) (' ' :: '=' :: ' ' :: (ds ++ [';'])) =
      some (.ok .assign, ⟨5 + L, 6 + L⟩, 6 + L, ' ' :: (ds ++ [';'])) := by
    rw [nextToken_space, nextToken_assign_space]
    simp only [Option.some.injEq, Prod.mk.injEq, Span.mk.injEq, eq_self_iff_true,
               true_and, and_true]
    omega
  have t4 : nextToken (6 + L) (' ' :: (ds ++ [';'])) =
      some (.ok (.integerLiteral (digitsToNat ds)), ⟨7 + L, 7 + L + D⟩, 7 + L + D, [';']) := by
    rw [nextToken_space, show 6 + L + 1 = 7 + L from by omega,
        nextToken_digits_semi (7 + L) ds [] hne hds]
    simp [intLexResult, hle, hD]
  have t5 : nextToken (7 + L + D) [';'] =
      some (.ok .semicolon, ⟨7 + L + D, 8 + L + D⟩, 8 + L + D, []) := by
    rw [nextToken_semicolon]
    simp only [Option.some.injEq, Prod.mk.injEq, Span.mk.injEq, eq_self_iff_true,
               true_and, and_true]
    omega
  have htok : tokenize src =
      [(.ok .kLet, ⟨0, 3⟩),
       (.ok (.identifier (String.mk (c0 :: cs))), ⟨4, 4 + L⟩),
       (.ok .assign, ⟨5 + L, 6 + L⟩),
       (.ok (.integerLiteral (digitsToNat ds)), ⟨7 + L, 7 + L + D⟩),
       (.ok .semicolon, ⟨7 + L + D, 8 + L + D⟩)] := by
    unfold tokenize
    rw [hlen,
        tokenizeAux_step (8 + L + D) 0 src _ _ _ _ (by omega) t1,
        tokenizeAux_step (8 + L + D - 1) 3 _ _ _ _ _ (by omega) t2,
        tokenizeAux_step (8 + L + D - 1 - 1) (4 + L) _ _ _ _ _ (by omega) t3,
        tokenizeAux_step (8 + L + D - 1 - 1 - 1) (6 + L) _ _ _ _ _ (by omega) t4,
        tokenizeAux_step (8 + L + D - 1 - 1 - 1 - 1) (7 + L + D) _ _ _ _ _ (by omega) t5,
        tokenizeAux_nil]
  have hparse : parseProgramSrc src =
      .ok ⟨[.variableDeclaration
              ⟨String.mk (c0 :: cs), ⟨4, 4 + L⟩⟩
              (.integerLiteral ⟨(digitsToNat ds : Int), ⟨7 + L, 7 + L + D⟩⟩)
              ⟨0, 8 + L + D⟩],
           ⟨0, 8 + L + D⟩⟩ := by
    unfold parseProgramSrc
    rw [htok, hlen]
    rfl
  refine ⟨hparse, ?_, ?_⟩
  · unfold runtimeExecuteSrc
    rw [hparse]
    rfl
  · simp [get_variable, get_variable.go, Scope.get]

/-- C2, witness: the instantiated claim at `let x = 5;`. -/
theorem c2_witness :
    parseProgramSrc ('l' :: 'e' :: 't' :: ' ' ::
        (['x'] ++ (' ' :: '=' :: ' ' :: (['5'] ++ [';'])))) =
      .ok ⟨[.variableDeclaration
              ⟨String.mk ['x'], ⟨4, 4 + (['x'] : List Char).length⟩⟩
              (.integerLiteral ⟨(digitsToNat ['5'] : Int),
                 ⟨7 + (['x'] : List Char).length,
                  7 + (['x'] : List Char).length + (['5'] : List Char).length⟩⟩)
              ⟨0, 8 + (['x'] : List Char).length + (['5'] : List Char).length⟩],
           ⟨0, 8 + (['x'] : List Char).length + (['5'] : List Char).length⟩⟩ ∧
    runtimeExecuteSrc ('l' :: 'e' :: 't' :: ' ' ::
        (['x'] ++ (' ' :: '=' :: ' ' :: (['5'] ++ [';'])))) =
      .ok ⟨[[(String.mk ['x'], Value.int (digitsToNat ['5']))]]⟩ ∧
    get_variable ⟨[[(String.mk ['x'], Value.int (digitsToNat ['5']))]]⟩
        (String.mk ['x']) = some (.int (digitsToNat ['5'])) :=
  c2_let_int ['x'] ['5'] (by decide) (by decide) (by decide) (by decide) (by decide)

/-- C3, counterexample: with `x` bound to `Int(1)` (and found by
`Environment::get_variable`), evaluating the identifier expression `x`
panics (`panic!("Unhandled expression type")`) instead of evaluating via
`Environment.get`; so the claimed literal/identifier projection does not
hold on the code. -/
theorem c3_counterexample :
    evaluate_expression ⟨[[("x", Value.int 1)]]⟩ (.identifier ⟨"x", ⟨0, 1⟩⟩) = .panicked ∧
    get_variable ⟨[[("x", Value.int 1)]]⟩ "x" = some (Value.int 1) := ⟨rfl, rfl⟩

/-- C3, amended: expression evaluation is a pure projection only for
integer literals, which evaluate to `Int(value)`; every other expression
kind - float, string and boolean literals and identifiers included -
panics with "Unhandled expression type" (the `Environment.get` lookup path
is never reached). -/
theorem c3_amended :
    (∀ (env : Environment) (v : Int) (sp : Span),
       evaluate_expression env (.integerLiteral ⟨v, sp⟩) = .ok (.int v)) ∧
    (∀ (env : Environment) (e : Expression),
       e.isIntegerLiteral = false → evaluate_expression env e = .panicked) := by
  refine ⟨fun env v sp => rfl, fun env e h => ?_⟩
  cases e <;> first
    | rfl
    | simp [Expression.isIntegerLiteral] at h

/-- C3, witness: the amended theorem applied to a boolean literal. -/
theorem c3_witness :
    evaluate_expression Environment.new (.booleanLiteral ⟨true, ⟨0, 4⟩⟩) = .panicked :=
  c3_amended.2 Environment.new (.booleanLiteral ⟨true, ⟨0, 4⟩⟩) rfl

/-- C4, counterexample: executing a program whose single statement is a
`ReturnStatement` (not a `VariableDeclaration`) succeeds with the
environment unchanged - the statement is logged and skipped - instead of
yielding the fatal "unsupported construct" error the claim states. -/
theorem c4_counterexample :
    execute_program Environment.new ⟨[.returnStatement none ⟨0, 7⟩], ⟨0, 7⟩⟩ =
      .ok Environment.new := rfl

/-- Executing statements none of which is a `VariableDeclaration` skips
them all and succeeds with the environment unchanged. -/
theorem execute_statements_skips (env : Environment) :
    ∀ stmts : List Statement, (∀ s ∈ stmts, s.isVariableDeclaration = false) →
      execute_statements env stmts = .ok env := by
  intro stmts h
  induction stmts with
  | nil => rfl
  | cons s rest ih =>
    have hs := h s (List.mem_cons_self s rest)
    have hrest := fun t ht => h t (List.mem_cons_of_mem s ht)
    cases s with
    | variableDeclaration i e sp => simp [Statement.isVariableDeclaration] at hs
    | functionDeclaration i p r b sp => exact ih hrest
    | structDeclaration sd => exact ih hrest
    | expressionStatement e sp => exact ih hrest
    | returnStatement v sp => exact ih hrest
    | breakStatement v sp => exact ih hrest

/-- C4, amended: executing a program all of whose statements are of kinds
other than `VariableDeclaration` (e.g. function declarations, struct
declarations, return statements) logs and SKIPS every such statement and
returns success with the environment unchanged - it does not yield an
"unsupported construct" error. -/
theorem c4_amended (env : Environment) (stmts : List Statement) (sp : Span)
    (h : ∀ s ∈ stmts, s.isVariableDeclaration = false) :
    execute_program env ⟨stmts, sp⟩ = .ok env :=
  execute_statements_skips env stmts h

/-- C4, witness: the amended theorem applied to a program holding one
function declaration and one unit-struct declaration. -/
theorem c4_witness :
    execute_program Environment.new
      ⟨[.functionDeclaration ⟨"main", ⟨3, 7⟩⟩ [] ⟨"int", ⟨12, 15⟩⟩ [] ⟨0, 20⟩,
        .structDeclaration (.unitStruct ⟨"P", ⟨28, 29⟩⟩ ⟨21, 30⟩)], ⟨0, 30⟩⟩ =
      .ok Environment.new :=
  c4_amended Environment.new _ ⟨0, 30⟩ (by decide)

/-- C5: in a fresh environment, `declare("x", Int(1))`, `push_scope()`,
`declare("x", Int(2))` makes `get("x")` return `Int(2)` (the inner
declaration shadows), and after `pop_scope()` `get("x")` returns `Int(1)`
(the inner declaration is discarded with its scope). -/
theorem c5_shadowing :
    declare_variable Environment.new "x" (.int 1) = .ok ⟨[[("x", .int 1)]]⟩ ∧
    declare_variable (push_scope ⟨[[("x", .int 1)]]⟩) "x" (.int 2) =
      .ok ⟨[[("x", .int 2)], [("x", .int 1)]]⟩ ∧
    get_variable ⟨[[("x", .int 2)], [("x", .int 1)]]⟩ "x" = some (.int 2) ∧
    get_variable (pop_scope ⟨[[("x", .int 2)], [("x", .int 1)]]⟩) "x" = some (.int 1) :=
  ⟨rfl, rfl, rfl, rfl⟩

/-- Every environment operation preserves a non-empty scope stack. -/
theorem applyEnvOp_preserves (env : Environment) (op : EnvOp)
    (h : 1 ≤ env.vars.length) : 1 ≤ (applyEnvOp env op).vars.length := by
  rcases env with ⟨vars⟩
  cases vars with
  | nil => simp at h
  | cons s rest =>
    cases op with
    | push => simp [applyEnvOp, push_scope]
    | pop =>
      show 1 ≤ (if (s :: rest).length > 1 then (⟨(s :: rest).tail⟩ : Environment)
                else ⟨s :: rest⟩).vars.length
      by_cases hl : rest.length > 0
      · rw [if_pos (by simp only [List.length_cons]; omega)]
        simpa using hl
      · rw [if_neg (by simp only [List.length_cons]; omega)]
        simp
    | declare n v => simp [applyEnvOp, declare_variable]
    | set n v => simp [applyEnvOp, set_variable]

/-- Running any operation sequence from a non-empty stack keeps it
non-empty. -/
theorem runEnvOps_preserves (ops : List EnvOp) :
    ∀ env : Environment, 1 ≤ env.vars.length → 1 ≤ (runEnvOps ops env).vars.length := by
  induction ops with
  | nil => intro env h; exact h
  | cons op rest ih =>
    intro env h
    exact ih (applyEnvOp env op) (applyEnvOp_preserves env op h)

/-- C6: the scope stack always holds at least one scope -
`Environment::new` creates exactly one scope; `push_scope` only adds and
`declare_variable`/`set_variable` leave the scope count unchanged (no
operation other than `pop_scope` removes a scope); `pop_scope` on a stack
of exactly one scope is a no-op; and every operation sequence run from a
fresh environment keeps the stack non-empty. -/
theorem c6_scope_invariant :
    Environment.new.vars.length = 1 ∧
    (∀ env : Environment, (push_scope env).vars.length = env.vars.length + 1) ∧
    (∀ (env : Environment) (n : String) (v : Value) (env' : Environment),
       declare_variable env n v = .ok env' → env'.vars.length = env.vars.length) ∧
    (∀ (env : Environment) (n : String) (v : Value) (env' : Environment),
       set_variable env n v = .ok env' → env'.vars.length = env.vars.length) ∧
    (∀ env : Environment, env.vars.length = 1 → pop_scope env = env) ∧
    (∀ ops : List EnvOp, 1 ≤ (runEnvOps ops Environment.new).vars.length) := by
  refine ⟨rfl, fun env => by simp [push_scope], ?_, ?_, ?_, ?_⟩
  · intro env n v env' h
    rcases env with ⟨vars⟩
    cases vars with
    | nil => simp [declare_variable] at h
    | cons s rest =>
      simp only [declare_variable] at h
      cases h
      simp
  · intro env n v env' h
    rcases env with ⟨vars⟩
    cases vars with
    | nil => simp [set_variable] at h
    | cons s rest =>
      simp only [set_variable] at h
      cases h
      simp
  · intro env h
    simp [pop_scope, h]
  · intro ops
    exact runEnvOps_preserves ops Environment.new (by rfl)

/-- C6, witness: the no-op pop and the count-preservation conjuncts
applied at concrete environments. -/
theorem c6_witness :
    pop_scope Environment.new = Environment.new ∧
    (Environment.mk [[("x", Value.int 0)]]).vars.length = Environment.new.vars.length ∧
    (Environment.mk [[("y", Value.int 1)]]).vars.length = Environment.new.vars.length :=
  ⟨c6_scope_invariant.2.2.2.2.1 Environment.new rfl,
   c6_scope_invariant.2.2.1 Environment.new "x" (.int 0) ⟨[[("x", Value.int 0)]]⟩ rfl,
   c6_scope_invariant.2.2.2.1 Environment.new "y" (.int 1) ⟨[[("y", Value.int 1)]]⟩ rfl⟩

/-- C7: `set_variable` and `declare_variable` are extensionally identical:
for every environment state, name and value they produce the same outcome
(both write into the current innermost scope and return `Ok(())`; neither
searches enclosing scopes). -/
theorem c7_set_eq_declare :
    ∀ (env : Environment) (name : String) (value : Value),
      set_variable env name value = declare_variable env name value := by
  intro env name value
  rcases env with ⟨vars⟩
  cases vars <;> rfl

/-- C8: parsing the malformed input `struct P(` (tuple-struct header with
no closing parenthesis before end of input) returns the `UnexpectedEof`
parse error - in particular it neither panics nor succeeds. -/
theorem c8_struct_eof :
    parseProgramSrc "struct P(".toList = .err .unexpectedEof := rfl

/-- C9: a digit-run token whose value exceeds `i64::MAX` yields a lexical
error carrying the numeric-parse failure reason (`ParseIntError` with
positive overflow); `str::parse::<f64>` on a `digits.digits` slice never
fails (so the float half of the claim cannot be triggered, and the
`ParseFloatError` plumbing is vacuously exercised); and any character
beginning no tokenization rule yields the default lexical error. -/
theorem c9_lexical_errors :
    (∀ ds : List Char, ds ≠ [] → (∀ c ∈ ds, isDigitCh c = true) →
       i64Max < digitsToNat ds →
       tokenize ds = [(.error (.parseIntError .posOverflow), ⟨0, ds.length⟩)]) ∧
    (∀ s : String, parseF64 s = .ok ⟨s⟩) ∧
    (∀ c : Char, startsRule c = false →
       tokenize [c] = [(.error .other, ⟨0, 1⟩)]) := by
  refine ⟨?_, fun s => rfl, ?_⟩
  · intro ds hne hds hlt
    have hlen : 0 < ds.length := List.length_pos.mpr hne
    have hstep := nextToken_digits_end 0 ds hne hds
    have hint : intLexResult ds = .error (.parseIntError .posOverflow) := by
      simp [intLexResult, Nat.not_le.mpr hlt]
    unfold tokenize
    rw [tokenizeAux_step ds.length 0 ds _ _ _ _ hlen hstep, tokenizeAux_nil, hint]
    simp
  · intro c h
    have hstep := nextToken_noRule 0 c h
    unfold tokenize
    rw [List.length_singleton,
        tokenizeAux_step 1 0 [c] _ _ _ _ (by omega) hstep, tokenizeAux_nil]

/-- C9, witness: the decimal literal `i64::MAX + 1` produces the
overflow lexical error, and the character `@` (matching no rule) produces
the default lexical error. -/
theorem c9_witness :
    tokenize "9223372036854775808".toList =
      [(.error (.parseIntError .posOverflow), ⟨0, "9223372036854775808".toList.length⟩)] ∧
    tokenize ['@'] = [(.error .other, ⟨0, 1⟩)] :=
  ⟨c9_lexical_errors.1 "9223372036854775808".toList (by decide) (by decide) (by decide),
   c9_lexical_errors.2.2 '@' (by decide)⟩

/-- C10: the parser is not total: it panics (`todo!`) on a statement
beginning with a token other than `let`/`fn`/`struct`/`return` (here the
keyword `true`), on a primary-expression token other than an integer
literal, float literal or identifier (here `(`), and on the binary
operator `-`, which `is_binary_op` matches but no arm implements. -/
theorem c10_parser_panics :
    parseProgramSrc "true".toList = .panicked ∧
    parseProgramSrc "let x = (1);".toList = .panicked ∧
    parseProgramSrc "let x = 1 - 2;".toList = .panicked := ⟨rfl, rfl, rfl⟩

end Rscript
